import Mathlib

/-!
Verification of the remote-notification repository's hybrid-encryption relay
protocol and token registry.

Shallow embedding conventions:
* Bytes are `Nat` values, with the invariant `b < 256` carried as hypotheses
  where it matters.
* Base64 transport (Go `encoding/base64` StdEncoding) is modelled over symbol
  alphabets as `Nat` (0..63 data symbols, 64 the padding symbol `=`); a symbol
  list has the same length as the Go string, so the source's length checks on
  the base64 string transfer unchanged.
* The RSA / AES-GCM primitives from Go's `crypto` packages are external
  collaborators; they are modelled as the fields of a `CryptoModel`, and the
  library's documented behaviour (round trip, ciphertext sizes, authentication)
  appears as explicit hypotheses of the theorems that need it.
* Go `time.Time` values are modelled as integers; `t.Before(u)` is `t < u`.
-/

set_option maxRecDepth 40000

/-! ### Base64 transport (Go encoding/base64 StdEncoding, modelled on symbols) -/

/-- Standard base64 encoding of a byte list into symbols 0..63 with the
padding symbol 64 standing for the character `=`. -/
def base64Encode : List Nat → List Nat
  | [] => []
  | [b1] => [b1 / 4, b1 % 4 * 16, 64, 64]
  | [b1, b2] => [b1 / 4, b1 % 4 * 16 + b2 / 16, b2 % 16 * 4, 64]
  | b1 :: b2 :: b3 :: rest =>
      b1 / 4 :: (b1 % 4 * 16 + b2 / 16) :: (b2 % 16 * 4 + b3 / 64) :: b3 % 64 ::
        base64Encode rest

/-- Standard base64 decoding (lenient about unused trailing bits, as Go's
default StdEncoding decoder is); fails on stray padding, symbols outside the
alphabet, or a length not a multiple of four. -/
def base64Decode : List Nat → Option (List Nat)
  | [] => some []
  | c1 :: c2 :: c3 :: c4 :: rest =>
      if c1 < 64 ∧ c2 < 64 then
        if c3 = 64 ∧ c4 = 64 ∧ rest = [] then
          some [c1 * 4 + c2 / 16]
        else if c3 < 64 ∧ c4 = 64 ∧ rest = [] then
          some [c1 * 4 + c2 / 16, c2 % 16 * 16 + c3 / 4]
        else if c3 < 64 ∧ c4 < 64 then
          (base64Decode rest).map fun bs =>
            (c1 * 4 + c2 / 16) :: (c2 % 16 * 16 + c3 / 4) :: (c3 % 4 * 64 + c4) :: bs
        else none
      else none
  | _ => none

/-! ### The four-byte big-endian length field -/

/-- Big-endian 32-bit read of four bytes, as in
`int(b0)<<24 | int(b1)<<16 | int(b2)<<8 | int(b3)`
(notification-backend/main.go line 495). -/
def beU32 (b0 b1 b2 b3 : Nat) : Nat :=
  b0 <<< 24 ||| b1 <<< 16 ||| b2 <<< 8 ||| b3

/-- The four bytes `byte(n>>24), byte(n>>16), byte(n>>8), byte(n)` that
`encryptTokenHybrid` writes for the wrapped-key length
(notification-backend/storage.go lines 313-319; Go's `byte` cast is `% 256`). -/
def beU32Bytes (n : Nat) : List Nat :=
  [n >>> 24 % 256, n >>> 16 % 256, n >>> 8 % 256, n % 256]

/-! ### The external crypto primitives (Go crypto/rsa, crypto/aes, crypto/cipher) -/

/-- The cryptographic collaborators used by the notification backend: the
loaded RSA private key (represented by its size `privateKey.Size()` and the
PKCS1v15 wrap/unwrap functions) and AES-GCM seal/open. `rsaEncrypt`'s
randomized padding is fixed per model; theorems quantify over models. -/
structure CryptoModel where
  rsaSize : Nat
  rsaEncrypt : List Nat → List Nat
  rsaDecrypt : List Nat → Option (List Nat)
  gcmSeal : List Nat → List Nat → List Nat → List Nat
  gcmOpen : List Nat → List Nat → List Nat → Option (List Nat)

/-- Decryption failure taxonomy of `decryptHybridToken`, one constructor per
`return "", fmt.Errorf(...)` site (notification-backend/main.go 469-544). -/
inductive DecryptError where
  | dataTooShortStr (n : Nat)
  | dataTooLongStr (n : Nat)
  | base64DecodeFailed
  | dataTooShort
  | invalidKeySize (expected got : Nat)
  | dataMalformed
  | rsaDecryptFailed
  | aesCipherFailed
  | gcmOpenFailed
  | decryptedTooShort (n : Nat)
  | decryptedTooLong (n : Nat)
deriving DecidableEq, Repr

/-- Decidable equality for `Except` results, so concrete runs of the embedded
code can be checked by `decide`. -/
instance {e a : Type} [DecidableEq e] [DecidableEq a] : DecidableEq (Except e a) := fun x y =>
  match x, y with
  | .ok v, .ok w => decidable_of_iff (v = w) (by simp)
  | .error v, .error w => decidable_of_iff (v = w) (by simp)
  | .ok _, .error _ => isFalse (by intro h; cases h)
  | .error _, .ok _ => isFalse (by intro h; cases h)

/-- The crypto tail of `decryptHybridToken` (main.go lines 510-543): RSA-unwrap
the AES key, build the AES cipher (`aes.NewCipher` accepts 16/24/32-byte keys;
`cipher.NewGCM` never fails for an AES block), GCM-open the token, and validate
the plaintext length. -/
def cryptoStage (c : CryptoModel) (iv encryptedAesKey encryptedToken : List Nat) :
    Except DecryptError (List Nat) :=
  match c.rsaDecrypt encryptedAesKey with
  | none => .error .rsaDecryptFailed
  | some aesKeyBytes =>
      if aesKeyBytes.length = 16 ∨ aesKeyBytes.length = 24 ∨ aesKeyBytes.length = 32 then
        match c.gcmOpen aesKeyBytes iv encryptedToken with
        | none => .error .gcmOpenFailed
        | some decryptedBytes =>
            if decryptedBytes.length < 1 then .error (.decryptedTooShort decryptedBytes.length)
            else if decryptedBytes.length > 2000 then
              .error (.decryptedTooLong decryptedBytes.length)
            else .ok decryptedBytes
      else .error .aesCipherFailed

/-- Translation of `decryptHybridToken` (notification-backend/main.go 469-544).
The input is the base64 string as a symbol list (same length as the Go
string); the private key is the `CryptoModel` (the `privateKey == nil` guard
is outside the loaded-key state space modelled here). -/
def decryptHybridToken (c : CryptoModel) (encryptedData : List Nat) :
    Except DecryptError (List Nat) :=
  if encryptedData.length < 100 then .error (.dataTooShortStr encryptedData.length)
  else if encryptedData.length > 10000 then .error (.dataTooLongStr encryptedData.length)
  else
    match base64Decode encryptedData with
    | none => .error .base64DecodeFailed
    | some combinedBytes =>
        if combinedBytes.length < 16 then .error .dataTooShort
        else
          let keyLength := beU32 (combinedBytes.getD 12 0) (combinedBytes.getD 13 0)
            (combinedBytes.getD 14 0) (combinedBytes.getD 15 0)
          if keyLength ≠ c.rsaSize then .error (.invalidKeySize c.rsaSize keyLength)
          else if combinedBytes.length < 16 + keyLength then .error .dataMalformed
          else
            cryptoStage c (combinedBytes.take 12)
              ((combinedBytes.drop 16).take keyLength)
              (combinedBytes.drop (16 + keyLength))

/-- Translation of `encryptTokenHybrid` (notification-backend/storage.go
280-328, the client-side reference encryption used by the test suite). The
random AES-256 key and GCM IV drawn from `rand.Read` are explicit inputs. -/
def encryptTokenHybrid (c : CryptoModel) (aesKey iv token : List Nat) : List Nat :=
  let encryptedToken := c.gcmSeal aesKey iv token
  let encryptedAESKey := c.rsaEncrypt aesKey
  let keyLengthBytes := beU32Bytes encryptedAESKey.length
  base64Encode (iv ++ keyLengthBytes ++ encryptedAESKey ++ encryptedToken)

/-- Single-bit tamper at byte position `p`, bit `j`. -/
def flipBit (bs : List Nat) (p j : Nat) : List Nat :=
  bs.set p (bs.getD p 0 ^^^ 1 <<< j)

/-- The errors that the spec's failure taxonomy groups under
`AuthenticationFailed`: everything the crypto stage can report once the
envelope has parsed structurally (corruption and wrong-key attempts are
deliberately indistinguishable). -/
def authFailureKind (e : DecryptError) : Prop :=
  e = .rsaDecryptFailed ∨ e = .aesCipherFailed ∨ e = .gcmOpenFailed

/-- Results of `decryptHybridToken` that can only arise strictly after the
wrapped-key and ciphertext slices have been taken (everything except the
structural parse errors). -/
def postSliceResult : Except DecryptError (List Nat) → Prop
  | .ok _ => True
  | .error .rsaDecryptFailed => True
  | .error .aesCipherFailed => True
  | .error .gcmOpenFailed => True
  | .error (.decryptedTooShort _) => True
  | .error (.decryptedTooLong _) => True
  | _ => False

/-! ### JSON response values (map[string]interface objects on the wire) -/

/-- A JSON value as used in the two servers' `map[string]interface{}`
response bodies. -/
inductive RespValue where
  | bool (b : Bool)
  | str (s : String)
  | nat (n : Nat)
deriving DecidableEq, Repr

/-- A JSON object body: ordered field list. -/
abbrev RespBody := List (String × RespValue)

/-- Reading a string field the way `encoding/json` unmarshals into a `string`
struct field: the zero value "" when the key is absent. -/
def lookupStr (body : RespBody) (key : String) : String :=
  match body.lookup key with
  | some (.str s) => s
  | _ => ""

/-- Reading a bool field, zero value `false` when absent. -/
def lookupBool (body : RespBody) (key : String) : Bool :=
  match body.lookup key with
  | some (.bool b) => b
  | _ => false

namespace NotifBackend

/-- Registration request body (notification-backend/main.go 39-42), after JSON
decoding. `EncryptedData` is the base64 string as a symbol list. -/
structure TokenRegistration where
  EncryptedData : List Nat
  Platform : String
deriving DecidableEq, Repr

/-- In-memory token store (notification-backend/main.go 57-96): a map from
encrypted token to registration time, here an association list with map
semantics. -/
structure TokenStore where
  tokens : List (List Nat × Nat)
deriving DecidableEq, Repr

/-- `NewTokenStore` (main.go 63-67). -/
def NewTokenStore : TokenStore := ⟨[]⟩

/-- `TokenStore.AddToken` (main.go 69-80): map insert keyed by the token. -/
def AddToken (ts : TokenStore) (token : List Nat) (now : Nat) : TokenStore :=
  ⟨(token, now) :: ts.tokens.filter fun kv => !(kv.1 == token)⟩

/-- `TokenStore.Count` (main.go 92-96). -/
def Count (ts : TokenStore) : Nat :=
  ts.tokens.length

/-- Translation of `handleRegister` (notification-backend/main.go 162-231)
from the point where the JSON body has decoded into a `TokenRegistration`.
Error strings are the `http.Error` messages; the success value is the JSON
response object built at lines 221-227. -/
def handleRegister (c : CryptoModel) (ts : TokenStore) (reg : TokenRegistration)
    (now : Nat) : Except String RespBody × TokenStore :=
  if reg.EncryptedData.length = 0 then (.error "Encrypted data is required", ts)
  else if reg.EncryptedData.length < 100 then (.error "Encrypted data too short", ts)
  else if reg.EncryptedData.length > 10000 then (.error "Encrypted data too long", ts)
  else
    match decryptHybridToken c reg.EncryptedData with
    | .error _ => (.error "Invalid encrypted token", ts)
    | .ok decryptedToken =>
        if decryptedToken.length < 10 then (.error "Decrypted token too short", ts)
        else if decryptedToken.length > 1000 then (.error "Decrypted token too long", ts)
        else
          let ts' := AddToken ts reg.EncryptedData now
          (.ok [("success", .bool true),
                ("message", .str "Token registered successfully"),
                ("platform", .str reg.Platform),
                ("total_tokens", .nat (Count ts'))], ts')

end NotifBackend

namespace AppBackend

/-- The response-handling core of `forwardTokenToBackend`
(app-backend/main.go 228-270): given the backend's HTTP status and decoded
JSON body, succeed with the opaque token id exactly when the status is 200,
`success` is true and `token_id` is non-empty. -/
def forwardTokenToBackend (status : Nat) (body : RespBody) : Except String String :=
  if status ≠ 200 then .error "backend returned non-200"
  else
    let success := lookupBool body "success"
    let tokenID := lookupStr body "token_id"
    let message := lookupStr body "message"
    if ¬success ∨ tokenID = "" then
      .error ("backend registration failed: " ++ message)
    else .ok tokenID

/-- The relay's own store (app-backend/main.go 41-62): opaque token ids only,
mapped to registration time. -/
structure AppTokenStore where
  tokenIDs : List (String × Nat)
deriving DecidableEq, Repr

/-- `NewTokenStore` (app-backend/main.go 48-52). -/
def NewAppTokenStore : AppTokenStore := ⟨[]⟩

/-- `TokenStore.AddTokenID` (app-backend/main.go 54-62): map insert. -/
def AddTokenID (ts : AppTokenStore) (tokenID : String) (now : Nat) : AppTokenStore :=
  ⟨(tokenID, now) :: ts.tokenIDs.filter fun kv => !(kv.1 == tokenID)⟩

/-- One externally-triggered request against the relay. A `register` event
carries the client's body fields and the notification backend's response to
the forwarded registration; a `sendAll` event is a broadcast request. -/
inductive RelayEvent where
  | register (encryptedData : String) (platform : String) (status : Nat)
      (body : RespBody) (now : Nat)
  | sendAll (message : String)
deriving DecidableEq, Repr

/-- Effect of one request on the relay's store: `handleRegister`
(app-backend/main.go 117-163) stores the id returned by
`forwardTokenToBackend` on success and nothing otherwise; `handleSendAll`
(165-206) only reads the store. -/
def relayStep (ts : AppTokenStore) : RelayEvent → AppTokenStore
  | .register encryptedData _ status body now =>
      if encryptedData = "" then ts
      else
        match forwardTokenToBackend status body with
        | .error _ => ts
        | .ok tokenID => AddTokenID ts tokenID now
  | .sendAll _ => ts

/-- The relay state after a sequence of requests, starting empty. -/
def relayRun (events : List RelayEvent) : AppTokenStore :=
  events.foldl relayStep NewAppTokenStore

/-- The encrypted envelopes the relay was asked to forward. -/
def registerEnvelopes (events : List RelayEvent) : List String :=
  events.filterMap fun e =>
    match e with
    | .register encryptedData _ _ _ _ => some encryptedData
    | .sendAll _ => none

/-- The opaque ids the trusted hop handed back on accepted registrations. -/
def issuedIDs (events : List RelayEvent) : List String :=
  events.filterMap fun e =>
    match e with
    | .register _ _ status body _ => (forwardTokenToBackend status body).toOption
    | .sendAll _ => none

end AppBackend

namespace Storage

/-- `TokenStorageInfo` (notification-backend/storage.go 20-28). Strings are
carried as character lists; timestamps as integers. -/
structure TokenStorageInfo where
  OpaqueID : List Char
  EncryptedData : List Char
  Platform : List Char
  RegisteredAt : Int
  LastUsedAt : Int
  PublicKeyHash : List Char
deriving DecidableEq, Repr

/-- The fields of `ExoscaleStorage` (storage.go 30-35) that the storage
operations read (the S3 client itself is the environment below). -/
structure ExoscaleStorage where
  bucketName : List Char
  publicKeyHash : List Char
deriving DecidableEq, Repr

/-- `buildObjectKey` (storage.go 248-251):
`fmt.Sprintf("%s/%s", s.publicKeyHash, opaqueID)`. -/
def buildObjectKey (s : ExoscaleStorage) (oid : List Char) : List Char :=
  s.publicKeyHash ++ '/' :: oid

/-- Lowercase hex digit, as produced by Go's `hex.EncodeToString`. -/
def hexDigit (n : Nat) : Char :=
  if n < 10 then Char.ofNat (48 + n) else Char.ofNat (87 + n)

/-- Lowercase hex encoding of a byte list (`hex.EncodeToString`). -/
def hexEncode (bs : List Nat) : List Char :=
  bs.foldr (fun b acc => hexDigit (b / 16) :: hexDigit (b % 16) :: acc) []

/-- `ComputePublicKeyHash` (storage.go 253-257): lowercase hex of the SHA-256
digest of the public-key PEM. The digest function itself (crypto/sha256,
external) is a parameter returning the 32 digest bytes. -/
def ComputePublicKeyHash (sha256 : List Char → List Nat) (publicKeyPEM : List Char) :
    List Char :=
  hexEncode (sha256 publicKeyPEM)

/-- The remote object store: the bucket contents plus which PutObject /
DeleteObject calls the backend service fails (network nondeterminism fixed
per run). -/
structure StorageEnv where
  bucket : List (List Char × TokenStorageInfo)
  putFails : List Char → Bool
  deleteFails : List Char → Bool

/-- S3 GetObject on the modelled bucket. -/
def bucketGet (bucket : List (List Char × TokenStorageInfo)) (key : List Char) :
    Option TokenStorageInfo :=
  (bucket.find? fun kv => kv.1 == key).map (·.2)

/-- S3 PutObject: last-writer-wins overwrite at the key. -/
def bucketPut (bucket : List (List Char × TokenStorageInfo)) (key : List Char)
    (info : TokenStorageInfo) : List (List Char × TokenStorageInfo) :=
  (key, info) :: bucket.filter fun kv => !(kv.1 == key)

/-- S3 DeleteObject: drop the binding at the key. -/
def bucketDelete (bucket : List (List Char × TokenStorageInfo)) (key : List Char) :
    List (List Char × TokenStorageInfo) :=
  bucket.filter fun kv => !(kv.1 == key)

/-- `StoreToken` (storage.go 91-121): marshal a fresh record (both timestamps
`time.Now()`) and PutObject it under `buildObjectKey opaqueID`. -/
def StoreToken (s : ExoscaleStorage) (env : StorageEnv) (oid encryptedData platform : List Char)
    (now : Int) : Except Unit StorageEnv :=
  let info : TokenStorageInfo :=
    { OpaqueID := oid, EncryptedData := encryptedData, Platform := platform,
      RegisteredAt := now, LastUsedAt := now, PublicKeyHash := s.publicKeyHash }
  let key := buildObjectKey s oid
  if env.putFails key then .error ()
  else .ok { env with bucket := bucketPut env.bucket key info }

/-- `updateLastUsed` (storage.go 151-167): re-PutObject the updated record. -/
def updateLastUsed (s : ExoscaleStorage) (env : StorageEnv) (oid : List Char)
    (info : TokenStorageInfo) : Except Unit StorageEnv :=
  let key := buildObjectKey s oid
  if env.putFails key then .error ()
  else .ok { env with bucket := bucketPut env.bucket key info }

/-- `GetToken` (storage.go 123-149): GetObject, decode, set `LastUsedAt` to
now, best-effort `updateLastUsed` (its failure only logs a warning), return
the updated record. -/
def GetToken (s : ExoscaleStorage) (env : StorageEnv) (oid : List Char) (now : Int) :
    Except Unit (TokenStorageInfo × StorageEnv) :=
  let key := buildObjectKey s oid
  match bucketGet env.bucket key with
  | none => .error ()
  | some info =>
      let info' := { info with LastUsedAt := now }
      match updateLastUsed s env oid info' with
      | .error _ => .ok (info', env)
      | .ok env' => .ok (info', env')

/-- `DeleteToken` (storage.go 207-221): DeleteObject at `buildObjectKey`. -/
def DeleteToken (s : ExoscaleStorage) (env : StorageEnv) (oid : List Char) :
    Except Unit StorageEnv :=
  let key := buildObjectKey s oid
  if env.deleteFails key then .error ()
  else .ok { env with bucket := bucketDelete env.bucket key }

/-- Membership test for ListObjectsV2 with `Prefix = publicKeyHash + "/"`. -/
def underNamespace (s : ExoscaleStorage) (key : List Char) : Bool :=
  key.take (s.publicKeyHash.length + 1) == s.publicKeyHash ++ ['/']

/-- `ListAllTokens` (storage.go 169-205): every decodable record under the
deployment's namespace. -/
def ListAllTokens (s : ExoscaleStorage) (env : StorageEnv) : List TokenStorageInfo :=
  (env.bucket.filter fun kv => underNamespace s kv.1).map (·.2)

/-- The per-record loop of `CleanupOldTokens` (storage.go 233-242): delete each
record strictly older than the cutoff; a failed delete logs, skips, and the
pass continues; `deleted` counts successful deletions only. -/
def cleanupLoop (s : ExoscaleStorage) (cutoff : Int) :
    List TokenStorageInfo → StorageEnv → Nat → Nat × StorageEnv
  | [], env, deleted => (deleted, env)
  | t :: rest, env, deleted =>
      if t.LastUsedAt < cutoff then
        match DeleteToken s env t.OpaqueID with
        | .error _ => cleanupLoop s cutoff rest env deleted
        | .ok env' => cleanupLoop s cutoff rest env' (deleted + 1)
      else cleanupLoop s cutoff rest env deleted

/-- `CleanupOldTokens` (storage.go 223-246): list all records, compute
`cutoff = now - maxAge`, run the deletion loop, return the count. -/
def CleanupOldTokens (s : ExoscaleStorage) (env : StorageEnv) (now maxAge : Int) :
    Nat × StorageEnv :=
  cleanupLoop s (now - maxAge) (ListAllTokens s env) env 0

end Storage

/-! ### Concrete instantiations of the external crypto collaborators

Small executable models satisfying the library contracts, used to evaluate the
embedded code on concrete inputs. -/

/-- A 2048-bit-style wrap: pad the 32-byte AES key to the 256-byte modulus
size. -/
def toyRsaEncrypt (m : List Nat) : List Nat :=
  m ++ List.replicate (256 - m.length) 0

/-- Matching unwrap: accept exactly modulus-size ciphertexts, recover the
32-byte key. -/
def toyRsaDecrypt (c : List Nat) : Option (List Nat) :=
  if c.length = 256 then some (c.take 32) else none

/-- AEAD seal with a 16-byte tag appended. -/
def toyGcmSeal (_key _iv pt : List Nat) : List Nat :=
  pt ++ List.replicate 16 0

/-- AEAD open: strip the 16-byte tag. -/
def toyGcmOpen (_key _iv ct : List Nat) : Option (List Nat) :=
  if 16 ≤ ct.length then some (ct.take (ct.length - 16)) else none

/-- Concrete crypto model used for evaluation witnesses. -/
def toyCrypto : CryptoModel :=
  ⟨256, toyRsaEncrypt, toyRsaDecrypt, toyGcmSeal, toyGcmOpen⟩

/-- A fixed 32-byte AES key. -/
def c2Key : List Nat := List.replicate 32 1

/-- A fixed 12-byte GCM IV. -/
def c2Iv : List Nat := List.replicate 12 2

/-- A fixed 20-byte device token. -/
def c2Token : List Nat := List.replicate 20 3

/-- Key of the single-session ideal model below. -/
def opKey : List Nat := List.replicate 32 1

/-- IV of the single-session ideal model. -/
def opIv : List Nat := List.replicate 12 2

/-- Plaintext of the single-session ideal model. -/
def opPt : List Nat := List.replicate 10 9

/-- Genuine AEAD ciphertext of the single-session ideal model. -/
def opCt : List Nat := List.replicate 26 5

/-- Genuine wrapped key of the single-session ideal model. -/
def opWk : List Nat := opKey ++ List.replicate 224 0

/-- A single-session ideal crypto model: the only ciphertexts that unwrap or
open are the genuine ones, matching the authentication guarantees of
RSA-PKCS1v15 and AES-GCM for one honest encryption. -/
def onePointCrypto : CryptoModel where
  rsaSize := 256
  rsaEncrypt := fun _ => opWk
  rsaDecrypt := fun c => if c = opWk then some opKey else none
  gcmSeal := fun _ _ _ => opCt
  gcmOpen := fun k iv ct => if k = opKey ∧ iv = opIv ∧ ct = opCt then some opPt else none

/-- A 73-byte buffer whose length field reads 7: IV, the big-endian field
`[0,0,0,7]`, then 57 filler bytes. -/
def c4Bytes : List Nat :=
  List.replicate 12 0 ++ [0, 0, 0, 7] ++ List.replicate 57 0

/-- Its base64 encoding (100 characters), a key-size-mismatch probe. -/
def c4Input : List Nat := base64Encode c4Bytes

/-- A concrete registration carrying a valid envelope for `toyCrypto`. -/
def c5Reg : NotifBackend.TokenRegistration :=
  ⟨encryptTokenHybrid toyCrypto c2Key c2Iv c2Token, "android"⟩

/-- The JSON object `handleRegister` answers for `c5Reg` on an empty store. -/
def regSuccessResp : RespBody :=
  [("success", .bool true),
   ("message", .str "Token registered successfully"),
   ("platform", .str "android"),
   ("total_tokens", .nat 1)]

/-- A concrete relay trace: one accepted registration, one broadcast. -/
def c6Events : List AppBackend.RelayEvent :=
  [.register "envA" "android" 200
    [("success", .bool true), ("token_id", .str "abc"), ("message", .str "ok")] 7,
   .sendAll "hi"]

/-- A two-point stand-in for the SHA-256 collaborator. -/
def c7sha (pem : List Char) : List Nat :=
  if pem = ['a'] then List.replicate 32 0 else List.replicate 31 0 ++ [1]

/-- A concrete deployment identity for storage witnesses. -/
def c8s : Storage.ExoscaleStorage := ⟨['b', 'k'], ['h']⟩

/-- A concrete stored record with the given id and last-used time. -/
def c8rec (oid : List Char) (lu : Int) : Storage.TokenStorageInfo :=
  ⟨oid, ['e'], ['p'], 0, lu, ['h']⟩

/-- A concrete bucket: two stale records (deleting the second fails) and one
fresh record. -/
def c8env : Storage.StorageEnv :=
  ⟨[(Storage.buildObjectKey c8s ['a'], c8rec ['a'] 0),
    (Storage.buildObjectKey c8s ['b'], c8rec ['b'] 0),
    (Storage.buildObjectKey c8s ['c'], c8rec ['c'] 18)],
   fun _ => false,
   fun k => k == Storage.buildObjectKey c8s ['b']⟩

/-- A concrete single-record bucket whose writes all succeed. -/
def c9env : Storage.StorageEnv :=
  ⟨[(Storage.buildObjectKey c8s ['a'], c8rec ['a'] 0)], fun _ => false, fun _ => false⟩

/-!
## Theorems

First the transport-layer lemmas, then a symbolic-execution lemma for
`decryptHybridToken` on well-formed envelopes, then the claims.
-/

/-- Base64 decoding inverts encoding on byte lists. -/
theorem base64Decode_encode (bs : List Nat) (h : ∀ b ∈ bs, b < 256) :
    base64Decode (base64Encode bs) = some bs := by
  induction bs using base64Encode.induct with
  | case1 => rfl
  | case2 b1 =>
      have hb1 : b1 < 256 := h b1 (by simp)
      have h4 : b1 / 4 < 64 := by omega
      have h16 : b1 % 4 * 16 < 64 := by omega
      simp only [base64Encode, base64Decode]
      rw [if_pos ⟨h4, h16⟩, if_pos ⟨trivial, trivial, trivial⟩]
      have : b1 / 4 * 4 + b1 % 4 * 16 / 16 = b1 := by
        rw [Nat.mul_div_cancel _ (by omega : 0 < 16)]
        omega
      rw [this]
  | case3 b1 b2 =>
      have hb1 : b1 < 256 := h b1 (by simp)
      have hb2 : b2 < 256 := h b2 (by simp)
      have h4 : b1 / 4 < 64 := by omega
      have hc2 : b1 % 4 * 16 + b2 / 16 < 64 := by omega
      have hc3 : b2 % 16 * 4 < 64 := by omega
      simp only [base64Encode, base64Decode]
      rw [if_pos ⟨h4, hc2⟩, if_neg (by omega), if_pos ⟨hc3, trivial, trivial⟩]
      have e1 : b1 / 4 * 4 + (b1 % 4 * 16 + b2 / 16) / 16 = b1 := by
        have : (b1 % 4 * 16 + b2 / 16) / 16 = b1 % 4 := by omega
        omega
      have e2 : (b1 % 4 * 16 + b2 / 16) % 16 * 16 + b2 % 16 * 4 / 4 = b2 := by
        have h1 : (b1 % 4 * 16 + b2 / 16) % 16 = b2 / 16 := by omega
        have h2 : b2 % 16 * 4 / 4 = b2 % 16 := by
          rw [Nat.mul_div_cancel _ (by omega : 0 < 4)]
        omega
      rw [e1, e2]
  | case4 b1 b2 b3 rest ih =>
      have hb1 : b1 < 256 := h b1 (by simp)
      have hb2 : b2 < 256 := h b2 (by simp)
      have hb3 : b3 < 256 := h b3 (by simp)
      have hrest : ∀ b ∈ rest, b < 256 := fun b hb => h b (by simp [hb])
      have h4 : b1 / 4 < 64 := by omega
      have hc2 : b1 % 4 * 16 + b2 / 16 < 64 := by omega
      have hc3 : b2 % 16 * 4 + b3 / 64 < 64 := by omega
      have hc4 : b3 % 64 < 64 := by omega
      simp only [base64Encode, base64Decode]
      rw [if_pos ⟨h4, hc2⟩, if_neg (by omega), if_neg (by omega), if_pos ⟨hc3, hc4⟩,
        ih hrest]
      have e1 : b1 / 4 * 4 + (b1 % 4 * 16 + b2 / 16) / 16 = b1 := by
        have : (b1 % 4 * 16 + b2 / 16) / 16 = b1 % 4 := by omega
        omega
      have e2 : (b1 % 4 * 16 + b2 / 16) % 16 * 16 + (b2 % 16 * 4 + b3 / 64) / 4 = b2 := by
        have h1 : (b1 % 4 * 16 + b2 / 16) % 16 = b2 / 16 := by omega
        have h2 : (b2 % 16 * 4 + b3 / 64) / 4 = b2 % 16 := by omega
        omega
      have e3 : (b2 % 16 * 4 + b3 / 64) % 4 * 64 + b3 % 64 = b3 := by
        have h1 : (b2 % 16 * 4 + b3 / 64) % 4 = b3 / 64 := by omega
        omega
      simp only [Option.map_some']
      rw [e1, e2, e3]

/-- Length of a base64 encoding: four symbols per three bytes, rounded up. -/
theorem base64Encode_length (bs : List Nat) :
    (base64Encode bs).length = 4 * ((bs.length + 2) / 3) := by
  induction bs using base64Encode.induct with
  | case1 => rfl
  | case2 b1 => simp [base64Encode]
  | case3 b1 b2 => simp [base64Encode]
  | case4 b1 b2 b3 rest ih =>
      simp only [base64Encode, List.length_cons, ih]
      omega

/-- Shifted-or of a small operand is addition (the big-endian byte
recombination in `decryptHybridToken` line 495). -/
theorem shiftLeft_or_of_lt {a b n : Nat} (hb : b < 2 ^ n) :
    a <<< n ||| b = a <<< n + b := by
  rw [Nat.shiftLeft_eq, Nat.mul_comm, ← Nat.mul_add_lt_is_or hb]

/-- `beU32` recombines the four bytes written by `beU32Bytes`. -/
theorem beU32_beU32Bytes (n : Nat) (h : n < 2 ^ 32) :
    beU32 (n >>> 24 % 256) (n >>> 16 % 256) (n >>> 8 % 256) (n % 256) = n := by
  have e24 : n >>> 24 = n / 2 ^ 24 := Nat.shiftRight_eq_div_pow n 24
  have e16 : n >>> 16 = n / 2 ^ 16 := Nat.shiftRight_eq_div_pow n 16
  have e8 : n >>> 8 = n / 2 ^ 8 := Nat.shiftRight_eq_div_pow n 8
  unfold beU32
  rw [Nat.or_assoc, Nat.or_assoc]
  rw [shiftLeft_or_of_lt (n := 8) (by omega)]
  rw [shiftLeft_or_of_lt (n := 16)
    (by rw [Nat.shiftLeft_eq]; omega)]
  rw [shiftLeft_or_of_lt (n := 24)
    (by rw [Nat.shiftLeft_eq, Nat.shiftLeft_eq]; omega)]
  rw [Nat.shiftLeft_eq, Nat.shiftLeft_eq, Nat.shiftLeft_eq]
  rw [e24, e16, e8]
  omega

/-- Symbolic execution of `decryptHybridToken` on a structurally well-formed
envelope `iv ++ length-field ++ wrapped-key ++ ciphertext` whose base64
encoding passes the size window: the outcome is exactly the crypto tail. -/
theorem decryptHybridToken_envelope (c : CryptoModel) (iv wk ct : List Nat)
    (hIv : iv.length = 12) (hWk : wk.length = c.rsaSize)
    (hIvB : ∀ b ∈ iv, b < 256) (hWkB : ∀ b ∈ wk, b < 256) (hCtB : ∀ b ∈ ct, b < 256)
    (hLo : 73 ≤ 16 + c.rsaSize + ct.length)
    (hHi : 16 + c.rsaSize + ct.length ≤ 7500) :
    decryptHybridToken c (base64Encode (iv ++ beU32Bytes c.rsaSize ++ wk ++ ct)) =
      cryptoStage c iv wk ct := by
  set n := c.rsaSize with hn
  set E := iv ++ beU32Bytes n ++ wk ++ ct with hEdef
  have hELen : E.length = 16 + n + ct.length := by
    rw [hEdef]
    simp [beU32Bytes, hIv, hWk]
    omega
  have hEB : ∀ b ∈ E, b < 256 := by
    intro b hb
    rw [hEdef] at hb
    simp only [beU32Bytes, List.mem_append, List.mem_cons, List.not_mem_nil,
      or_false] at hb
    rcases hb with ((hb | (hb | hb | hb | hb)) | hb) | hb
    · exact hIvB b hb
    · omega
    · omega
    · omega
    · omega
    · exact hWkB b hb
    · exact hCtB b hb
  have h100 : ¬(base64Encode E).length < 100 := by
    rw [base64Encode_length, hELen]; omega
  have h10000 : ¬(base64Encode E).length > 10000 := by
    rw [base64Encode_length, hELen]; omega
  have hdec : base64Decode (base64Encode E) = some E := base64Decode_encode E hEB
  have hstep : decryptHybridToken c (base64Encode E) =
      (if E.length < 16 then Except.error DecryptError.dataTooShort
       else if beU32 (E.getD 12 0) (E.getD 13 0) (E.getD 14 0) (E.getD 15 0) ≠ c.rsaSize then
         Except.error (DecryptError.invalidKeySize c.rsaSize
           (beU32 (E.getD 12 0) (E.getD 13 0) (E.getD 14 0) (E.getD 15 0)))
       else if E.length < 16 + beU32 (E.getD 12 0) (E.getD 13 0) (E.getD 14 0) (E.getD 15 0) then
         Except.error DecryptError.dataMalformed
       else
         cryptoStage c (E.take 12)
           ((E.drop 16).take (beU32 (E.getD 12 0) (E.getD 13 0) (E.getD 14 0) (E.getD 15 0)))
           (E.drop (16 + beU32 (E.getD 12 0) (E.getD 13 0) (E.getD 14 0) (E.getD 15 0)))) := by
    unfold decryptHybridToken
    rw [if_neg h100, if_neg h10000, hdec]
  have hgetD : ∀ k, E.getD (12 + k) 0 = (beU32Bytes n ++ (wk ++ ct)).getD k 0 := by
    intro k
    rw [hEdef, List.append_assoc, List.append_assoc,
      List.getD_append_right _ _ _ _ (by omega), hIv]
    congr 1
    omega
  have hg12 : E.getD 12 0 = n >>> 24 % 256 := by simpa [beU32Bytes] using hgetD 0
  have hg13 : E.getD 13 0 = n >>> 16 % 256 := by simpa [beU32Bytes] using hgetD 1
  have hg14 : E.getD 14 0 = n >>> 8 % 256 := by simpa [beU32Bytes] using hgetD 2
  have hg15 : E.getD 15 0 = n % 256 := by simpa [beU32Bytes] using hgetD 3
  have hkl : beU32 (E.getD 12 0) (E.getD 13 0) (E.getD 14 0) (E.getD 15 0) = n := by
    rw [hg12, hg13, hg14, hg15]
    exact beU32_beU32Bytes n (by omega)
  have htake : E.take 12 = iv := by
    rw [hEdef, List.append_assoc, List.append_assoc]
    exact List.take_left' hIv
  have hdropTake : (E.drop 16).take n = wk := by
    have h16 : (iv ++ beU32Bytes n).length = 16 := by simp [beU32Bytes, hIv]
    rw [hEdef, List.append_assoc (iv ++ beU32Bytes n), List.drop_left' h16]
    exact List.take_left' hWk
  have hdropCt : E.drop (16 + n) = ct := by
    have hlen : (iv ++ beU32Bytes n ++ wk).length = 16 + n := by
      simp [beU32Bytes, hIv, hWk]
      omega
    rw [hEdef]
    exact List.drop_left' hlen
  rw [hstep, hkl, if_neg (by omega), if_neg (by simp), if_neg (by omega),
    htake, hdropTake, hdropCt]

/-- C2 as stated, refuted on the empty plaintext: with a crypto model
satisfying the library round-trip contract at these inputs, encrypting the
empty token and decrypting the envelope does not return the token; the
plaintext-length validation rejects it. -/
theorem hybrid_roundtrip_fails_on_empty_plaintext :
    toyCrypto.rsaDecrypt (toyCrypto.rsaEncrypt c2Key) = some c2Key ∧
    toyCrypto.gcmOpen c2Key c2Iv (toyCrypto.gcmSeal c2Key c2Iv []) = some [] ∧
    decryptHybridToken toyCrypto (encryptTokenHybrid toyCrypto c2Key c2Iv []) =
      .error (.decryptedTooShort 0) := by
  refine ⟨by decide, by decide, ?_⟩
  decide

/-- C2 (amended): hybrid round trip holds for every plaintext of 1..2000
bytes (the validation window of `decryptHybridToken`) whenever the envelope
fits the 100..10000-character transport window, for every crypto model
satisfying the Go library contract at the chosen key, IV and plaintext. -/
theorem hybrid_roundtrip (c : CryptoModel) (aesKey iv pt : List Nat)
    (hKeyLen : aesKey.length = 32)
    (hIv : iv.length = 12)
    (hIvB : ∀ b ∈ iv, b < 256)
    (hWrapLen : (c.rsaEncrypt aesKey).length = c.rsaSize)
    (hWrapB : ∀ b ∈ c.rsaEncrypt aesKey, b < 256)
    (hUnwrap : c.rsaDecrypt (c.rsaEncrypt aesKey) = some aesKey)
    (hSealLen : (c.gcmSeal aesKey iv pt).length = pt.length + 16)
    (hSealB : ∀ b ∈ c.gcmSeal aesKey iv pt, b < 256)
    (hOpen : c.gcmOpen aesKey iv (c.gcmSeal aesKey iv pt) = some pt)
    (hPtMin : 1 ≤ pt.length) (hPtMax : pt.length ≤ 2000)
    (hSizeLo : 40 ≤ c.rsaSize) (hSizeHi : c.rsaSize + pt.length ≤ 7468) :
    decryptHybridToken c (encryptTokenHybrid c aesKey iv pt) = .ok pt := by
  have henc : encryptTokenHybrid c aesKey iv pt =
      base64Encode (iv ++ beU32Bytes c.rsaSize ++ c.rsaEncrypt aesKey ++
        c.gcmSeal aesKey iv pt) := by
    simp only [encryptTokenHybrid, hWrapLen]
  rw [henc, decryptHybridToken_envelope c iv (c.rsaEncrypt aesKey) (c.gcmSeal aesKey iv pt)
    hIv hWrapLen hIvB hWrapB hSealB (by omega) (by omega)]
  have hnl : ¬pt.length < 1 := by omega
  have hnh : ¬pt.length > 2000 := by omega
  simp [cryptoStage, hUnwrap, hKeyLen, hOpen, hnl, hnh]

/-- Witness for the amended C2: the round trip evaluated at a concrete model,
key, IV and 20-byte token. -/
theorem hybrid_roundtrip_witness :
    decryptHybridToken toyCrypto (encryptTokenHybrid toyCrypto c2Key c2Iv c2Token) =
      .ok c2Token :=
  hybrid_roundtrip toyCrypto c2Key c2Iv c2Token (by decide) (by decide) (by decide)
    (by decide) (by decide) (by decide) (by decide) (by decide) (by decide)
    (by decide) (by decide) (by decide) (by decide)

/-- Replacing a byte by itself xor a nonzero bit changes the list. -/
theorem set_xor_ne (l : List Nat) (q j : Nat) (hq : q < l.length) :
    l.set q (l.getD q 0 ^^^ 1 <<< j) ≠ l := by
  intro h
  have h1 : (l.set q (l.getD q 0 ^^^ 1 <<< j)).getD q 0 = l.getD q 0 := by rw [h]
  rw [List.getD_eq_getElem?_getD, List.getElem?_set_self hq, Option.getD_some] at h1
  have h2 : 1 <<< j = 0 := by
    have hx := congrArg (l.getD q 0 ^^^ ·) h1
    simpa [← Nat.xor_assoc] using hx
  rw [Nat.shiftLeft_eq] at h2
  have := Nat.two_pow_pos j
  omega

/-- A single-bit flip keeps every byte below 256. -/
theorem set_xor_bytes (l : List Nat) (q j : Nat) (hj : j < 8) (hB : ∀ b ∈ l, b < 256) :
    ∀ b ∈ l.set q (l.getD q 0 ^^^ 1 <<< j), b < 256 := by
  intro b hb
  rcases List.mem_or_eq_of_mem_set hb with hb | rfl
  · exact hB b hb
  · have h1 : l.getD q 0 < 256 := by
      by_cases hq : q < l.length
      · rw [List.getD_eq_getElem _ _ hq]
        exact hB _ (List.getElem_mem hq)
      · rw [List.getD_eq_default _ _ (by omega)]
        omega
    have h2 : 1 <<< j < 256 := by
      rw [Nat.shiftLeft_eq]
      have := Nat.pow_le_pow_right (by omega : 1 ≤ 2) (by omega : j ≤ 7)
      omega
    have h256 : (256 : Nat) = 2 ^ 8 := by norm_num
    rw [h256] at h1 h2 ⊢
    exact Nat.xor_lt_two_pow h1 h2

/-- If the GCM open of the sliced ciphertext fails for every key the RSA
unwrap can produce, the crypto tail ends in an authentication-class error. -/
theorem cryptoStage_auth_error (c : CryptoModel) (iv wk ct : List Nat)
    (hOpenNone : ∀ k', c.rsaDecrypt wk = some k' → c.gcmOpen k' iv ct = none) :
    ∃ e, cryptoStage c iv wk ct = .error e ∧ authFailureKind e := by
  rcases hrd : c.rsaDecrypt wk with _ | k'
  · exact ⟨.rsaDecryptFailed, by simp [cryptoStage, hrd], Or.inl rfl⟩
  · by_cases hlen : k'.length = 16 ∨ k'.length = 24 ∨ k'.length = 32
    · exact ⟨.gcmOpenFailed, by simp [cryptoStage, hrd, hlen, hOpenNone k' hrd],
        Or.inr (Or.inr rfl)⟩
    · exact ⟨.aesCipherFailed, by simp [cryptoStage, hrd, hlen], Or.inr (Or.inl rfl)⟩

/-- C3: tamper detection. For an envelope produced under the active key
(`wk = rsaEncrypt key`, `ct` the genuine GCM ciphertext), with the standard
single-session authentication guarantees of the primitives as hypotheses
(`hRSADec`: only genuine wrappings unwrap; `hIdealOpen`: only the genuine
key/IV/ciphertext triple opens), flipping any single bit of the IV region,
the wrapped-key region, or the ciphertext region makes `decryptHybridToken`
fail with an `AuthenticationFailed`-class error — never returning any
plaintext. -/
theorem tamper_detection (c : CryptoModel) (key iv wk ct : List Nat) (p j : Nat)
    (hIv : iv.length = 12) (hWk : wk.length = c.rsaSize)
    (hIvB : ∀ b ∈ iv, b < 256) (hWkB : ∀ b ∈ wk, b < 256) (hCtB : ∀ b ∈ ct, b < 256)
    (hLo : 73 ≤ 16 + c.rsaSize + ct.length)
    (hHi : 16 + c.rsaSize + ct.length ≤ 7500)
    (hwkGen : wk = c.rsaEncrypt key)
    (hRSADec : ∀ c' k', c.rsaDecrypt c' = some k' → c' = c.rsaEncrypt k')
    (hIdealOpen : ∀ k' iv' ct', ¬(k' = key ∧ iv' = iv ∧ ct' = ct) →
      c.gcmOpen k' iv' ct' = none)
    (hj : j < 8)
    (hp : p < 12 ∨ (16 ≤ p ∧ p < 16 + c.rsaSize) ∨
      (16 + c.rsaSize ≤ p ∧ p < 16 + c.rsaSize + ct.length)) :
    ∃ e, decryptHybridToken c
        (base64Encode (flipBit (iv ++ beU32Bytes c.rsaSize ++ wk ++ ct) p j)) =
        .error e ∧ authFailureKind e := by
  set n := c.rsaSize with hn
  have h16 : (iv ++ beU32Bytes n).length = 16 := by simp [beU32Bytes, hIv]
  have hPre : (iv ++ beU32Bytes n ++ wk).length = 16 + n := by
    simp only [List.length_append, h16, hWk]
  rcases hp with hp | ⟨hp1, hp2⟩ | ⟨hp1, hp2⟩
  · -- bit flipped inside the 12-byte IV
    have hgp : (iv ++ beU32Bytes n ++ wk ++ ct).getD p 0 = iv.getD p 0 := by
      rw [List.getD_append _ _ _ _ (by rw [hPre]; omega),
        List.getD_append _ _ _ _ (by rw [h16]; omega),
        List.getD_append _ _ _ _ (by rw [hIv]; omega)]
    have hset : flipBit (iv ++ beU32Bytes n ++ wk ++ ct) p j =
        iv.set p (iv.getD p 0 ^^^ 1 <<< j) ++ beU32Bytes n ++ wk ++ ct := by
      unfold flipBit
      rw [hgp, List.set_append_left _ _ (by rw [hPre]; omega),
        List.set_append_left _ _ (by rw [h16]; omega),
        List.set_append_left _ _ (by rw [hIv]; omega)]
    rw [hset, decryptHybridToken_envelope c _ wk ct (by simp [hIv]) hWk
      (set_xor_bytes iv p j hj hIvB) hWkB hCtB hLo hHi]
    apply cryptoStage_auth_error
    intro k' _
    apply hIdealOpen
    rintro ⟨-, hiv, -⟩
    exact set_xor_ne iv p j (by omega) hiv
  · -- bit flipped inside the wrapped-key region
    have hgp : (iv ++ beU32Bytes n ++ wk ++ ct).getD p 0 = wk.getD (p - 16) 0 := by
      rw [List.getD_append _ _ _ _ (by rw [hPre]; omega),
        List.getD_append_right _ _ _ _ (by rw [h16]; omega), h16]
    have hset : flipBit (iv ++ beU32Bytes n ++ wk ++ ct) p j =
        iv ++ beU32Bytes n ++ wk.set (p - 16) (wk.getD (p - 16) 0 ^^^ 1 <<< j) ++ ct := by
      unfold flipBit
      rw [hgp, List.set_append_left _ _ (by rw [hPre]; omega),
        List.set_append_right _ _ (by rw [h16]; omega), h16]
    have hne : wk.set (p - 16) (wk.getD (p - 16) 0 ^^^ 1 <<< j) ≠ wk :=
      set_xor_ne wk (p - 16) j (by rw [hWk]; omega)
    rw [hset, decryptHybridToken_envelope c iv _ ct hIv (by simp [hWk])
      hIvB (set_xor_bytes wk (p - 16) j hj hWkB) hCtB hLo hHi]
    apply cryptoStage_auth_error
    intro k' hdec
    apply hIdealOpen
    rintro ⟨hk, -, -⟩
    subst hk
    exact hne ((hRSADec _ _ hdec).trans hwkGen.symm)
  · -- bit flipped inside the ciphertext region
    have hgp : (iv ++ beU32Bytes n ++ wk ++ ct).getD p 0 = ct.getD (p - (16 + n)) 0 := by
      rw [List.getD_append_right _ _ _ _ (by rw [hPre]; omega), hPre]
    have hset : flipBit (iv ++ beU32Bytes n ++ wk ++ ct) p j =
        iv ++ beU32Bytes n ++ wk ++
          ct.set (p - (16 + n)) (ct.getD (p - (16 + n)) 0 ^^^ 1 <<< j) := by
      unfold flipBit
      rw [hgp, List.set_append_right _ _ (by rw [hPre]; omega), hPre]
    have hne : ct.set (p - (16 + n)) (ct.getD (p - (16 + n)) 0 ^^^ 1 <<< j) ≠ ct :=
      set_xor_ne ct (p - (16 + n)) j (by omega)
    rw [hset, decryptHybridToken_envelope c iv wk _ hIv hWk
      hIvB hWkB (set_xor_bytes ct (p - (16 + n)) j hj hCtB) (by simp; omega)
      (by simp; omega)]
    apply cryptoStage_auth_error
    intro k' hdec
    apply hIdealOpen
    rintro ⟨-, -, hct⟩
    exact hne hct

/-- Witness for C3: a concrete bit flip in the IV of a concrete envelope under
the single-session ideal model is rejected with an authentication-class
error. -/
theorem tamper_detection_witness :
    ∃ e, decryptHybridToken onePointCrypto
        (base64Encode (flipBit (opIv ++ beU32Bytes onePointCrypto.rsaSize ++ opWk ++ opCt) 0 0)) =
        .error e ∧ authFailureKind e :=
  tamper_detection onePointCrypto opKey opIv opWk opCt 0 0 (by decide) (by decide)
    (by decide) (by decide) (by decide) (by decide) (by decide) rfl
    (by
      intro c' k' h
      simp only [onePointCrypto] at h ⊢
      split at h
      · next hc =>
          cases h
          exact hc
      · exact absurd h (by simp))
    (by
      intro k' iv' ct' hne
      simp only [onePointCrypto]
      rw [if_neg hne])
    (by decide) (Or.inl (by decide))

/-- C4: key-size validation before slicing. On any input that passes the
transport checks and decodes, (1) a length field disagreeing with the active
key's modulus size is rejected with `invalidKeySize`, and (2) whenever the
outcome is one that can only arise after the wrapped-key/ciphertext slices
are taken, the length field matched the key size and the slice bound
`16 + keyLength` lies within the buffer — no out-of-bounds index. -/
theorem key_size_validated_before_slicing (c : CryptoModel) (s bs : List Nat)
    (h100 : 100 ≤ s.length) (hmax : s.length ≤ 10000)
    (hdec : base64Decode s = some bs) (h16 : 16 ≤ bs.length) :
    (beU32 (bs.getD 12 0) (bs.getD 13 0) (bs.getD 14 0) (bs.getD 15 0) ≠ c.rsaSize →
      decryptHybridToken c s = .error (.invalidKeySize c.rsaSize
        (beU32 (bs.getD 12 0) (bs.getD 13 0) (bs.getD 14 0) (bs.getD 15 0)))) ∧
    (postSliceResult (decryptHybridToken c s) →
      beU32 (bs.getD 12 0) (bs.getD 13 0) (bs.getD 14 0) (bs.getD 15 0) = c.rsaSize ∧
      16 + c.rsaSize ≤ bs.length) := by
  have hstep : decryptHybridToken c s =
      (if bs.length < 16 then Except.error DecryptError.dataTooShort
       else if beU32 (bs.getD 12 0) (bs.getD 13 0) (bs.getD 14 0) (bs.getD 15 0) ≠ c.rsaSize then
         Except.error (DecryptError.invalidKeySize c.rsaSize
           (beU32 (bs.getD 12 0) (bs.getD 13 0) (bs.getD 14 0) (bs.getD 15 0)))
       else if bs.length < 16 + beU32 (bs.getD 12 0) (bs.getD 13 0) (bs.getD 14 0) (bs.getD 15 0) then
         Except.error DecryptError.dataMalformed
       else
         cryptoStage c (bs.take 12)
           ((bs.drop 16).take (beU32 (bs.getD 12 0) (bs.getD 13 0) (bs.getD 14 0) (bs.getD 15 0)))
           (bs.drop (16 + beU32 (bs.getD 12 0) (bs.getD 13 0) (bs.getD 14 0) (bs.getD 15 0)))) := by
    unfold decryptHybridToken
    rw [if_neg (by omega), if_neg (by omega), hdec]
  constructor
  · intro hne
    rw [hstep, if_neg (by omega), if_pos hne]
  · intro hps
    rw [hstep, if_neg (by omega)] at hps
    by_cases hkl : beU32 (bs.getD 12 0) (bs.getD 13 0) (bs.getD 14 0) (bs.getD 15 0) ≠ c.rsaSize
    · rw [if_pos hkl] at hps
      simp [postSliceResult] at hps
    · have hkl' : beU32 (bs.getD 12 0) (bs.getD 13 0) (bs.getD 14 0) (bs.getD 15 0) =
          c.rsaSize := by omega
      refine ⟨hkl', ?_⟩
      rw [if_neg hkl] at hps
      by_cases hml : bs.length <
          16 + beU32 (bs.getD 12 0) (bs.getD 13 0) (bs.getD 14 0) (bs.getD 15 0)
      · rw [if_pos hml] at hps
        simp [postSliceResult] at hps
      · omega

/-- Witness for C4: a 73-byte buffer whose length field reads 7 is rejected
with `invalidKeySize` against a 256-byte key. -/
theorem key_size_validated_before_slicing_witness :
    decryptHybridToken toyCrypto c4Input = .error (.invalidKeySize toyCrypto.rsaSize
      (beU32 (c4Bytes.getD 12 0) (c4Bytes.getD 13 0) (c4Bytes.getD 14 0) (c4Bytes.getD 15 0))) :=
  (key_size_validated_before_slicing toyCrypto c4Input c4Bytes (by decide) (by decide)
    (by decide) (by decide)).1 (by decide)

/-- C10: the implicit plaintext-length postcondition. Every plaintext
`decryptHybridToken` returns has 1..2000 bytes, and an envelope that
authenticates (the GCM open succeeds) but yields an empty or over-long
plaintext is rejected by the crypto tail with the corresponding error. -/
theorem decrypted_token_length_window :
    (∀ (c : CryptoModel) (s pt : List Nat), decryptHybridToken c s = .ok pt →
      1 ≤ pt.length ∧ pt.length ≤ 2000) ∧
    (∀ (c : CryptoModel) (iv wk ct k pt : List Nat), c.rsaDecrypt wk = some k →
      (k.length = 16 ∨ k.length = 24 ∨ k.length = 32) → c.gcmOpen k iv ct = some pt →
      (pt.length = 0 → cryptoStage c iv wk ct = .error (.decryptedTooShort 0)) ∧
      (2000 < pt.length → cryptoStage c iv wk ct = .error (.decryptedTooLong pt.length))) := by
  constructor
  · intro c s pt h
    simp only [decryptHybridToken, cryptoStage] at h
    repeat' split at h
    all_goals try exact Except.noConfusion h
    all_goals (injection h with h2; subst h2; omega)
  · intro c iv wk ct k pt hrd hlen hopen
    constructor
    · intro h0
      simp [cryptoStage, hrd, hlen, hopen, h0]
    · intro hlong
      have h1 : ¬pt.length < 1 := by omega
      simp [cryptoStage, hrd, hlen, hopen, h1, hlong]

/-- Witness for C10: the bounds hold on a concrete successful decryption, and
a concrete authenticated-but-empty plaintext is rejected. -/
theorem decrypted_token_length_window_witness :
    (1 ≤ c2Token.length ∧ c2Token.length ≤ 2000) ∧
    cryptoStage toyCrypto c2Iv (toyRsaEncrypt c2Key) (toyGcmSeal c2Key c2Iv []) =
      .error (.decryptedTooShort 0) :=
  ⟨decrypted_token_length_window.1 toyCrypto
      (encryptTokenHybrid toyCrypto c2Key c2Iv c2Token) c2Token (by decide),
   (decrypted_token_length_window.2 toyCrypto c2Iv (toyRsaEncrypt c2Key)
      (toyGcmSeal c2Key c2Iv []) c2Key [] (by decide) (by decide) (by decide)).1 (by decide)⟩

/-- C5: registration validates before persisting, atomically on error. For
every request, if `handleRegister` rejects it (any validation failure,
including decryption failure), the token store is returned unchanged; if it
succeeds, the submitted envelope decrypted to a plaintext inside the 10..1000
validation window and the store is exactly the old store with the encrypted
token added. -/
theorem register_validates_before_persisting (c : CryptoModel)
    (ts : NotifBackend.TokenStore) (reg : NotifBackend.TokenRegistration) (now : Nat) :
    ∀ res ts', NotifBackend.handleRegister c ts reg now = (res, ts') →
      (∀ e, res = .error e → ts' = ts) ∧
      (∀ resp, res = .ok resp →
        ∃ pt, decryptHybridToken c reg.EncryptedData = .ok pt ∧
          10 ≤ pt.length ∧ pt.length ≤ 1000 ∧
          ts' = NotifBackend.AddToken ts reg.EncryptedData now) := by
  intro res ts' h
  simp only [NotifBackend.handleRegister] at h
  repeat' split at h
  all_goals injection h with h1 h2
  all_goals subst h1
  all_goals subst h2
  all_goals constructor
  all_goals first
    | exact fun _ h' => Except.noConfusion h'
    | exact fun _ _ => rfl
    | (rename_i pt hpt _ _
       exact fun resp hresp => ⟨pt, hpt, by omega, by omega, rfl⟩)

/-- Witness for C5: the success case on a concrete valid registration over an
empty store. -/
theorem register_validates_before_persisting_witness :
    ∃ pt, decryptHybridToken toyCrypto c5Reg.EncryptedData = .ok pt ∧
      10 ≤ pt.length ∧ pt.length ≤ 1000 ∧
      (NotifBackend.handleRegister toyCrypto NotifBackend.NewTokenStore c5Reg 0).2 =
        NotifBackend.AddToken NotifBackend.NewTokenStore c5Reg.EncryptedData 0 :=
  (register_validates_before_persisting toyCrypto NotifBackend.NewTokenStore c5Reg 0
    (NotifBackend.handleRegister toyCrypto NotifBackend.NewTokenStore c5Reg 0).1
    (NotifBackend.handleRegister toyCrypto NotifBackend.NewTokenStore c5Reg 0).2
    rfl).2 regSuccessResp (by decide)

/-- C1 (divergence witness): on a registration whose envelope validates, the
checked-in `handleRegister` answers success with fields
success/message/platform/total_tokens and no `token_id` field at all, and the
relay's `forwardTokenToBackend` therefore rejects the very response that
reported success — the opaque identifier the spec promises is never issued. -/
theorem register_response_lacks_token_id :
    (NotifBackend.handleRegister toyCrypto NotifBackend.NewTokenStore c5Reg 0).1 =
      .ok regSuccessResp ∧
    regSuccessResp.lookup "token_id" = none ∧
    AppBackend.forwardTokenToBackend 200 regSuccessResp =
      .error "backend registration failed: Token registered successfully" :=
  ⟨by decide, by decide, by decide⟩

/-- Provenance invariant of the relay store under one trace: anything in the
final store was either there initially or is an id issued by the trusted hop
during the trace. -/
theorem relayRun_mem_issued (events : List AppBackend.RelayEvent) :
    ∀ (st : AppBackend.AppTokenStore) (kv : String × Nat),
      kv ∈ (events.foldl AppBackend.relayStep st).tokenIDs →
      kv ∈ st.tokenIDs ∨ kv.1 ∈ AppBackend.issuedIDs events := by
  induction events with
  | nil =>
      intro st kv h
      exact Or.inl h
  | cons e rest ih =>
      intro st kv h
      rw [List.foldl_cons] at h
      rcases ih (AppBackend.relayStep st e) kv h with h' | h'
      · cases e with
        | register ed p status body now =>
            simp only [AppBackend.relayStep] at h'
            split at h'
            · exact Or.inl h'
            · split at h'
              · exact Or.inl h'
              · rename_i tid heq
                simp only [AppBackend.AddTokenID, List.mem_cons] at h'
                rcases h' with h' | h'
                · right
                  simp only [AppBackend.issuedIDs, List.filterMap_cons, heq]
                  subst h'
                  exact List.mem_cons_self _ _
                · exact Or.inl (List.mem_of_mem_filter h')
        | sendAll m =>
            exact Or.inl h'
      · right
        cases e with
        | register ed p status body now =>
            simp only [AppBackend.issuedIDs, List.filterMap_cons]
            rcases hf : AppBackend.forwardTokenToBackend status body with err | tid
            · exact h'
            · exact List.mem_cons_of_mem _ h'
        | sendAll m =>
            simp only [AppBackend.issuedIDs, List.filterMap_cons]
            exact h'

/-- C6: zero-knowledge relay invariant. After any sequence of register and
broadcast requests starting from the empty store, every entry of the relay's
store is an opaque id handed back by the trusted hop, and — provided the
trusted hop's issued ids are distinct from every envelope the relay forwarded
— the store never contains any forwarded `encrypted_data`. -/
theorem relay_zero_knowledge (events : List AppBackend.RelayEvent) :
    (∀ kv ∈ (AppBackend.relayRun events).tokenIDs, kv.1 ∈ AppBackend.issuedIDs events) ∧
    ((∀ t ∈ AppBackend.issuedIDs events, ∀ ed ∈ AppBackend.registerEnvelopes events, t ≠ ed) →
      ∀ kv ∈ (AppBackend.relayRun events).tokenIDs,
        ∀ ed ∈ AppBackend.registerEnvelopes events, kv.1 ≠ ed) := by
  have hmem : ∀ kv ∈ (AppBackend.relayRun events).tokenIDs,
      kv.1 ∈ AppBackend.issuedIDs events := by
    intro kv h
    rcases relayRun_mem_issued events AppBackend.NewAppTokenStore kv h with h' | h'
    · simp [AppBackend.NewAppTokenStore] at h'
    · exact h'
  exact ⟨hmem, fun hdisj kv hkv ed hed => hdisj kv.1 (hmem kv hkv) ed hed⟩

/-- Witness for C6: in a concrete trace the stored id is the issued one and
differs from the forwarded envelope. -/
theorem relay_zero_knowledge_witness :
    ("abc", 7) ∈ (AppBackend.relayRun c6Events).tokenIDs ∧ ("abc" : String) ≠ "envA" :=
  ⟨by decide,
   (relay_zero_knowledge c6Events).2 (by decide) ("abc", 7) (by decide) "envA" (by decide)⟩

/-- The lowercase hex digits are pairwise distinct. -/
theorem hexDigit_inj : ∀ m n : Fin 16,
    Storage.hexDigit m.val = Storage.hexDigit n.val → m.val = n.val := by
  decide

/-- Hex encoding is twice as long as the byte list. -/
theorem hexEncode_length (bs : List Nat) : (Storage.hexEncode bs).length = 2 * bs.length := by
  induction bs with
  | nil => rfl
  | cons x xs ih =>
      show (Storage.hexDigit (x / 16) :: Storage.hexDigit (x % 16) ::
        Storage.hexEncode xs).length = 2 * (x :: xs).length
      simp [ih]
      omega

/-- Hex encoding is injective on byte lists. -/
theorem hexEncode_inj : ∀ (a b : List Nat), (∀ x ∈ a, x < 256) → (∀ x ∈ b, x < 256) →
    Storage.hexEncode a = Storage.hexEncode b → a = b := by
  intro a
  induction a with
  | nil =>
      intro b _ _ h
      cases b with
      | nil => rfl
      | cons y ys =>
          have := congrArg List.length h
          rw [hexEncode_length, hexEncode_length] at this
          simp at this
  | cons x xs ih =>
      intro b ha hb h
      cases b with
      | nil =>
          have := congrArg List.length h
          rw [hexEncode_length, hexEncode_length] at this
          simp at this
      | cons y ys =>
          have hx : x < 256 := ha x (by simp)
          have hy : y < 256 := hb y (by simp)
          have h' : Storage.hexDigit (x / 16) :: Storage.hexDigit (x % 16) ::
              Storage.hexEncode xs = Storage.hexDigit (y / 16) :: Storage.hexDigit (y % 16) ::
              Storage.hexEncode ys := h
          obtain ⟨h1, h2, h3⟩ : Storage.hexDigit (x / 16) = Storage.hexDigit (y / 16) ∧
              Storage.hexDigit (x % 16) = Storage.hexDigit (y % 16) ∧
              Storage.hexEncode xs = Storage.hexEncode ys := by
            simpa using h'
          have e1 : x / 16 = y / 16 := hexDigit_inj ⟨x / 16, by omega⟩ ⟨y / 16, by omega⟩ h1
          have e2 : x % 16 = y % 16 := hexDigit_inj ⟨x % 16, by omega⟩ ⟨y % 16, by omega⟩ h2
          have exy : x = y := by omega
          rw [exy, ih ys (fun z hz => ha z (by simp [hz])) (fun z hz => hb z (by simp [hz])) h3]

/-- C7: remote-store namespacing. With the key identity computed as the hex
SHA-256 of the public-key PEM (the digest function is the external
collaborator `sha`), every object key is `key_identity ++ "/" ++ id`, and two
deployments whose public keys hash differently (no SHA-256 collision) never
produce the same object key, whatever the identifiers. `StoreToken`,
`GetToken` and `DeleteToken` all address the bucket exclusively through
`buildObjectKey` (their definitions above). -/
theorem object_key_namespacing (sha : List Char → List Nat)
    (pem1 pem2 oid1 oid2 bn1 bn2 : List Char)
    (h1 : (sha pem1).length = 32) (h2 : (sha pem2).length = 32)
    (hb1 : ∀ b ∈ sha pem1, b < 256) (hb2 : ∀ b ∈ sha pem2, b < 256)
    (hne : sha pem1 ≠ sha pem2) :
    (∀ oid, Storage.buildObjectKey ⟨bn1, Storage.ComputePublicKeyHash sha pem1⟩ oid =
      Storage.ComputePublicKeyHash sha pem1 ++ '/' :: oid) ∧
    Storage.buildObjectKey ⟨bn1, Storage.ComputePublicKeyHash sha pem1⟩ oid1 ≠
      Storage.buildObjectKey ⟨bn2, Storage.ComputePublicKeyHash sha pem2⟩ oid2 := by
  refine ⟨fun oid => rfl, fun h => ?_⟩
  have hlen : (Storage.ComputePublicKeyHash sha pem1).length =
      (Storage.ComputePublicKeyHash sha pem2).length := by
    unfold Storage.ComputePublicKeyHash
    rw [hexEncode_length, hexEncode_length, h1, h2]
  have := List.append_inj h hlen
  exact hne (hexEncode_inj (sha pem1) (sha pem2) hb1 hb2 this.1)

/-- Witness for C7: two concrete distinct digests yield distinct object keys
for arbitrary distinct identifiers. -/
theorem object_key_namespacing_witness :
    Storage.buildObjectKey ⟨[], Storage.ComputePublicKeyHash c7sha ['a']⟩ ['x'] ≠
      Storage.buildObjectKey ⟨[], Storage.ComputePublicKeyHash c7sha ['b']⟩ ['y'] :=
  (object_key_namespacing c7sha ['a'] ['b'] ['x'] ['y'] [] []
    (by decide) (by decide) (by decide) (by decide) (by decide)).2

/-- Taking the length of the left part plus `k` from an append takes `k` from
the right part. -/
theorem take_append_of_length {α : Type} (a b : List α) (k : Nat) :
    (a ++ b).take (a.length + k) = a ++ b.take k := by
  induction a with
  | nil => simp
  | cons x xs ih =>
      simp only [List.cons_append, List.length_cons]
      rw [show xs.length + 1 + k = (xs.length + k) + 1 by omega, List.take_succ_cons, ih]

/-- Every key built by `buildObjectKey` lies under the deployment's
namespace. -/
theorem underNamespace_buildObjectKey (s : Storage.ExoscaleStorage) (oid : List Char) :
    Storage.underNamespace s (Storage.buildObjectKey s oid) = true := by
  unfold Storage.underNamespace Storage.buildObjectKey
  rw [take_append_of_length]
  simp

/-- On a well-keyed bucket, `ListAllTokens` lists every stored record. -/
theorem listAll_eq_map (s : Storage.ExoscaleStorage) (env : Storage.StorageEnv)
    (hkeys : ∀ kv ∈ env.bucket, kv.1 = Storage.buildObjectKey s kv.2.OpaqueID) :
    Storage.ListAllTokens s env = env.bucket.map (·.2) := by
  unfold Storage.ListAllTokens
  rw [List.filter_eq_self.mpr]
  intro kv hkv
  rw [hkeys kv hkv]
  exact underNamespace_buildObjectKey s kv.2.OpaqueID

/-- In an association list with distinct keys, a key determines its value. -/
theorem nodup_keys_unique {α β : Type} {l : List (α × β)}
    (h : (l.map Prod.fst).Nodup) :
    ∀ {k : α} {v1 v2 : β}, (k, v1) ∈ l → (k, v2) ∈ l → v1 = v2 := by
  induction l with
  | nil =>
      intro k v1 v2 h1
      simp at h1
  | cons kv rest ih =>
      intro k v1 v2 h1 h2
      simp only [List.map_cons, List.nodup_cons] at h
      rcases List.mem_cons.mp h1 with e1 | m1
      · rcases List.mem_cons.mp h2 with e2 | m2
        · rw [← e1] at e2
          exact (Prod.mk.injEq _ _ _ _ ▸ e2).2.symm
        · exfalso
          apply h.1
          rw [← e1]
          exact List.mem_map.mpr ⟨(k, v2), m2, rfl⟩
      · rcases List.mem_cons.mp h2 with e2 | m2
        · exfalso
          apply h.1
          rw [← e2]
          exact List.mem_map.mpr ⟨(k, v1), m1, rfl⟩
        · exact ih h.2 m1 m2

/-- Count specification of the cleanup loop: the returned count is the number
of processed records that are strictly older than the cutoff and whose delete
call succeeds — a failed delete is skipped without aborting the loop. -/
theorem cleanupLoop_count (s : Storage.ExoscaleStorage) (cutoff : Int)
    (f : List Char → Bool) :
    ∀ (ts : List Storage.TokenStorageInfo) (env : Storage.StorageEnv) (d : Nat),
      env.deleteFails = f →
      (Storage.cleanupLoop s cutoff ts env d).1 =
        d + (ts.filter fun t => decide (t.LastUsedAt < cutoff) &&
          !f (Storage.buildObjectKey s t.OpaqueID)).length := by
  intro ts
  induction ts with
  | nil =>
      intro env d hf
      simp [Storage.cleanupLoop]
  | cons t rest ih =>
      intro env d hf
      unfold Storage.cleanupLoop
      by_cases hold : t.LastUsedAt < cutoff
      · rw [if_pos hold]
        by_cases hfail : f (Storage.buildObjectKey s t.OpaqueID) = true
        · have hdel : Storage.DeleteToken s env t.OpaqueID = .error () := by
            unfold Storage.DeleteToken
            rw [hf, if_pos hfail]
          rw [hdel]
          show (Storage.cleanupLoop s cutoff rest env d).1 = _
          rw [ih env d hf, List.filter_cons_of_neg (by simp [hold, hfail])]
        · have hdel : Storage.DeleteToken s env t.OpaqueID = .ok { env with bucket := Storage.bucketDelete env.bucket (Storage.buildObjectKey s t.OpaqueID) } := by
            unfold Storage.DeleteToken
            rw [hf, if_neg hfail]
          rw [hdel]
          show (Storage.cleanupLoop s cutoff rest _ (d + 1)).1 = _
          rw [ih { env with bucket := Storage.bucketDelete env.bucket (Storage.buildObjectKey s t.OpaqueID) } (d + 1) hf,
            List.filter_cons_of_pos (by simp [hold, hfail])]
          simp
          omega
      · rw [if_neg hold]
        rw [ih env d hf, List.filter_cons_of_neg (by simp [hold])]

/-- Bucket specification of the cleanup loop: a record survives exactly when
no processed record that is old and deletable has its object key. -/
theorem cleanupLoop_bucket (s : Storage.ExoscaleStorage) (cutoff : Int)
    (f : List Char → Bool) :
    ∀ (ts : List Storage.TokenStorageInfo) (env : Storage.StorageEnv) (d : Nat),
      env.deleteFails = f →
      (Storage.cleanupLoop s cutoff ts env d).2.bucket =
        env.bucket.filter fun kv =>
          ts.all fun t => !(decide (t.LastUsedAt < cutoff) &&
            !f (Storage.buildObjectKey s t.OpaqueID) &&
            (kv.1 == Storage.buildObjectKey s t.OpaqueID)) := by
  intro ts
  induction ts with
  | nil =>
      intro env d hf
      simp [Storage.cleanupLoop]
  | cons t rest ih =>
      intro env d hf
      unfold Storage.cleanupLoop
      by_cases hold : t.LastUsedAt < cutoff
      · rw [if_pos hold]
        by_cases hfail : f (Storage.buildObjectKey s t.OpaqueID) = true
        · have hdel : Storage.DeleteToken s env t.OpaqueID = .error () := by
            unfold Storage.DeleteToken
            rw [hf, if_pos hfail]
          rw [hdel]
          show (Storage.cleanupLoop s cutoff rest env d).2.bucket = _
          rw [ih env d hf]
          apply List.filter_congr
          intro kv _
          simp [List.all_cons, hold, hfail]
        · have hdel : Storage.DeleteToken s env t.OpaqueID = .ok { env with bucket := Storage.bucketDelete env.bucket (Storage.buildObjectKey s t.OpaqueID) } := by
            unfold Storage.DeleteToken
            rw [hf, if_neg hfail]
          rw [hdel]
          show (Storage.cleanupLoop s cutoff rest _ (d + 1)).2.bucket = _
          rw [ih { env with bucket := Storage.bucketDelete env.bucket (Storage.buildObjectKey s t.OpaqueID) } (d + 1) hf]
          show (Storage.bucketDelete env.bucket _).filter _ = _
          unfold Storage.bucketDelete
          rw [List.filter_filter]
          apply List.filter_congr
          intro kv _
          simp only [List.all_cons, hold, hfail]
          cases hbeq : kv.1 == Storage.buildObjectKey s t.OpaqueID <;> simp [hbeq]
      · rw [if_neg hold]
        rw [ih env d hf]
        apply List.filter_congr
        intro kv _
        simp [List.all_cons, hold]

/-- C8: the eviction pass. On a well-keyed bucket with distinct object keys,
`CleanupOldTokens` (1) returns exactly the number of records strictly older
than `now - maxAge` whose deletion succeeded — a failing deletion is skipped
and the rest of the pass still runs — and (2) leaves in the bucket exactly
the records that were not old, plus the old ones whose deletion failed. -/
theorem cleanup_evicts_old_tokens (s : Storage.ExoscaleStorage) (env : Storage.StorageEnv)
    (now maxAge : Int)
    (hkeys : ∀ kv ∈ env.bucket, kv.1 = Storage.buildObjectKey s kv.2.OpaqueID)
    (hnodup : (env.bucket.map Prod.fst).Nodup) :
    (Storage.CleanupOldTokens s env now maxAge).1 =
      ((Storage.ListAllTokens s env).filter fun t =>
        decide (t.LastUsedAt < now - maxAge) &&
        !env.deleteFails (Storage.buildObjectKey s t.OpaqueID)).length ∧
    (Storage.CleanupOldTokens s env now maxAge).2.bucket =
      env.bucket.filter fun kv => !(decide (kv.2.LastUsedAt < now - maxAge) &&
        !env.deleteFails kv.1) := by
  constructor
  · unfold Storage.CleanupOldTokens
    rw [cleanupLoop_count s (now - maxAge) env.deleteFails _ env 0 rfl]
    omega
  · unfold Storage.CleanupOldTokens
    rw [cleanupLoop_bucket s (now - maxAge) env.deleteFails _ env 0 rfl]
    apply List.filter_congr
    intro kv hkv
    rw [listAll_eq_map s env hkeys]
    have hkey : Storage.buildObjectKey s kv.2.OpaqueID = kv.1 := (hkeys kv hkv).symm
    cases hc : decide (kv.2.LastUsedAt < now - maxAge) && !env.deleteFails kv.1 with
    | true =>
        have hmem : kv.2 ∈ env.bucket.map (·.2) := List.mem_map_of_mem _ hkv
        cases hall : (env.bucket.map (·.2)).all fun t =>
            !(decide (t.LastUsedAt < now - maxAge) &&
              !env.deleteFails (Storage.buildObjectKey s t.OpaqueID) &&
              (kv.1 == Storage.buildObjectKey s t.OpaqueID)) with
        | true =>
            exfalso
            have hp := List.all_eq_true.mp hall kv.2 hmem
            rw [hkey] at hp
            simp [hc] at hp
        | false => simp
    | false =>
        simp only [Bool.not_false]
        rw [List.all_eq_true]
        intro t hmem
        obtain ⟨kvt, hkvt, rfl⟩ := List.mem_map.mp hmem
        cases hbeq : kv.1 == Storage.buildObjectKey s kvt.2.OpaqueID with
        | false => simp [hbeq]
        | true =>
            have hkeq : kv.1 = Storage.buildObjectKey s kvt.2.OpaqueID := by
              exact eq_of_beq hbeq
            have hkvt1 : kvt.1 = kv.1 := by
              rw [hkeys kvt hkvt, ← hkeq]
            have hv : kv.2 = kvt.2 := by
              apply nodup_keys_unique hnodup (k := kv.1)
              · exact (Prod.mk.eta (p := kv)) ▸ hkv
              · rw [← hkvt1]
                exact (Prod.mk.eta (p := kvt)) ▸ hkvt
            rw [← hv]
            simp only [hkey, beq_self_eq_true, Bool.and_true]
            simp [hc]

/-- Witness for C8: on the concrete bucket, one record is evicted (the stale
record whose delete fails is skipped but the pass continues past it), the
count is the number of successful deletions, and the fresh record survives. -/
theorem cleanup_evicts_old_tokens_witness :
    (Storage.CleanupOldTokens c8s c8env 20 5).1 = 1 ∧
    (Storage.CleanupOldTokens c8s c8env 20 5).2.bucket =
      [(Storage.buildObjectKey c8s ['b'], c8rec ['b'] 0),
       (Storage.buildObjectKey c8s ['c'], c8rec ['c'] 18)] := by
  have h := cleanup_evicts_old_tokens c8s c8env 20 5 (by decide) (by decide)
  exact ⟨h.1.trans (by decide), h.2.trans (by decide)⟩

/-- C9: resolving touches only the timestamp. If the record stored under the
identifier's object key is `info`, `GetToken` succeeds and returns a record
equal to `info` in every field except `last_used_at`, which becomes `now`;
a failed persist of the refreshed timestamp leaves the bucket unchanged yet
does not fail the lookup, and a successful persist rewrites only this
object key. -/
theorem get_token_touches_only_timestamp (s : Storage.ExoscaleStorage)
    (env : Storage.StorageEnv) (oid : List Char) (now : Int)
    (info : Storage.TokenStorageInfo)
    (h : Storage.bucketGet env.bucket (Storage.buildObjectKey s oid) = some info) :
    ∃ r env', Storage.GetToken s env oid now = .ok (r, env') ∧
      r.OpaqueID = info.OpaqueID ∧ r.EncryptedData = info.EncryptedData ∧
      r.Platform = info.Platform ∧ r.RegisteredAt = info.RegisteredAt ∧
      r.PublicKeyHash = info.PublicKeyHash ∧ r.LastUsedAt = now ∧
      (env.putFails (Storage.buildObjectKey s oid) = true → env' = env) ∧
      (env.putFails (Storage.buildObjectKey s oid) = false →
        env'.bucket = Storage.bucketPut env.bucket (Storage.buildObjectKey s oid)
          { info with LastUsedAt := now }) := by
  cases hput : env.putFails (Storage.buildObjectKey s oid) with
  | true =>
      refine ⟨{ info with LastUsedAt := now }, env, ?_, rfl, rfl, rfl, rfl, rfl, rfl,
        fun _ => rfl, fun hc => Bool.noConfusion hc⟩
      simp [Storage.GetToken, Storage.updateLastUsed, h, hput]
  | false =>
      refine ⟨{ info with LastUsedAt := now },
        { env with bucket := Storage.bucketPut env.bucket (Storage.buildObjectKey s oid) { info with LastUsedAt := now } },
        ?_, rfl, rfl, rfl, rfl, rfl, rfl,
        fun hc => Bool.noConfusion hc, fun _ => rfl⟩
      simp [Storage.GetToken, Storage.updateLastUsed, h, hput]

/-- Witness for C9: the lookup evaluated on the concrete single-record
bucket. -/
theorem get_token_touches_only_timestamp_witness :
    ∃ r env', Storage.GetToken c8s c9env ['a'] 20 = .ok (r, env') ∧
      r.OpaqueID = (c8rec ['a'] 0).OpaqueID ∧
      r.EncryptedData = (c8rec ['a'] 0).EncryptedData ∧
      r.Platform = (c8rec ['a'] 0).Platform ∧
      r.RegisteredAt = (c8rec ['a'] 0).RegisteredAt ∧
      r.PublicKeyHash = (c8rec ['a'] 0).PublicKeyHash ∧ r.LastUsedAt = 20 ∧
      (c9env.putFails (Storage.buildObjectKey c8s ['a']) = true → env' = c9env) ∧
      (c9env.putFails (Storage.buildObjectKey c8s ['a']) = false →
        env'.bucket = Storage.bucketPut c9env.bucket (Storage.buildObjectKey c8s ['a'])
          { c8rec ['a'] 0 with LastUsedAt := 20 }) :=
  get_token_touches_only_timestamp c8s c9env ['a'] 20 (c8rec ['a'] 0) (by decide)
